import Mathlib

/-!
Verification development for the device-deploy-demo repository.

The frontend code (src/frontend-workflow-app) is embedded directly from the
source.  Strings are embedded as `List Char`, JavaScript objects as Lean
structures, and the optional / missing JSON fields as `Option`.  The FastAPI
backend (backend/main.py) is not part of the source tree given here; the
parts of it that claims depend on (slug/encode, the inventory strip route,
the descriptor builder and the upsert orchestrator) are modelled from the
specification and are marked `Modelled from the spec:` in their doc comments.
-/

namespace DeviceDeploy

/-- Record returned by `parseDeviceFields` in
`src/frontend-workflow-app/src/components/DeviceDashboard.jsx` (lines 6-17):
a device name together with a device id, both character lists. -/
structure DeviceFields where
  deviceName : List Char
  deviceId : List Char
deriving DecidableEq, Repr

/-- Index of the last occurrence of `c` in a character list, mirroring
JavaScript `String.prototype.lastIndexOf` (`none` plays the role of `-1`). -/
def lastIndexOf (c : Char) : List Char → Option Nat
  | [] => none
  | x :: xs =>
    match lastIndexOf c xs with
    | some i => some (i + 1)
    | none => if x = c then some 0 else none

/-- Character map used by the decoder's global replace of hyphens by
spaces: every hyphen becomes a space, everything else is unchanged. -/
def dashToSpace (c : Char) : Char := if c = '-' then ' ' else c

/-- Characters of the literal `"device-"` marker stripped by the decoder. -/
def deviceTag : List Char := ['d', 'e', 'v', 'i', 'c', 'e', '-']

/-- The `trimmed` local of the decoder: the input with a leading `device-`
marker stripped when present, unchanged otherwise. -/
def stripTag (appName : List Char) : List Char :=
  if deviceTag.isPrefixOf appName then appName.drop deviceTag.length else appName

/-- Embedding of `parseDeviceFields` from
`src/frontend-workflow-app/src/components/DeviceDashboard.jsx` lines 6-17:
empty input gives empty fields; an optional `device-` marker is stripped
(`stripTag` is the `trimmed` local of the source); with no remaining hyphen
the whole remainder is the name and the id is empty; otherwise the part
after the last hyphen is the id and the part before it, with hyphens
mapped to spaces, is the name. -/
def parseDeviceFields (appName : List Char) : DeviceFields :=
  if appName = [] then ⟨[], []⟩
  else
    match lastIndexOf '-' (stripTag appName) with
    | none => ⟨stripTag appName, []⟩
    | some lastDash =>
      ⟨((stripTag appName).take lastDash).map dashToSpace, (stripTag appName).drop (lastDash + 1)⟩

/-- Modelled from the spec: the backend slug function is not under src.
Per §3 it lowercases and replaces whitespace and characters invalid in a
resource name with `-`; valid characters are the lowercase letters, digits
and the hyphen. -/
def slugChar (c : Char) : Char :=
  if ('a' ≤ c ∧ c ≤ 'z') ∨ c.isDigit ∨ c = '-' then c
  else if 'A' ≤ c ∧ c ≤ 'Z' then Char.ofNat (c.toNat + 32)
  else '-'

/-- Modelled from the spec: `slug` applies `slugChar` to every character of
the device name. -/
def slug (name : List Char) : List Char := name.map slugChar

/-- Modelled from the spec: the backend encoder is not under src.  Per §3
the canonical resource name is `"device-" ++ slug(name) ++ "-" ++ id`. -/
def encode (name id : List Char) : List Char :=
  deviceTag ++ slug name ++ '-' :: id

example : parseDeviceFields ['d','e','v','i','c','e','-','a','-','1'] = ⟨['a'], ['1']⟩ := by decide
example : parseDeviceFields ['f','o','o','-','b','a','r'] = ⟨['f','o','o'], ['b','a','r']⟩ := by decide
example : parseDeviceFields [] = ⟨[], []⟩ := by decide
example : encode ['A'] ['1'] = ['d','e','v','i','c','e','-','a','-','1'] := by decide

/-! ### Inventory Reconciler -/

/-- Raw inventory item as exposed by the continuous-delivery controller's
list call (§6): name, health, sync status, last-sync time, source repo and
destination namespace/server.  The health and sync fields are `Option`
because a controller item may lack them. -/
structure RawApp where
  name : List Char
  health : Option String
  sync : Option String
  lastSync : String
  repoUrl : String
  nspace : String
  cluster : String
deriving DecidableEq, Repr

/-- Shape of one element of the `apps` array the backend inventory route
hands to the frontend; `appName` and `clusterFqdn` may be absent, which the
frontend guards with JavaScript truthiness fallbacks. -/
structure BackendApp where
  name : List Char
  appName : Option (List Char)
  health : String
  sync : String
  lastSync : String
  repoUrl : String
  nspace : String
  cluster : String
  clusterFqdn : String
deriving DecidableEq, Repr

/-- Modelled from the spec: the backend inventory route (the `/argocd/apps`
handler in backend/main.py, not under src) strips each controller item to
the needed fields and, per §4.4 step 2, normalizes an unknown or missing
health or sync field to `Unknown`; a missing field is modelled as `none`. -/
def stripItem (raw : RawApp) : BackendApp :=
  { name := raw.name
    appName := none
    health := raw.health.getD "Unknown"
    sync := raw.sync.getD "Unknown"
    lastSync := raw.lastSync
    repoUrl := raw.repoUrl
    nspace := raw.nspace
    cluster := raw.cluster
    clusterFqdn := "" }

/-- Device record produced by the dashboard's normalization step
(DeviceDashboard.jsx lines 59-71); `nspace` stands for the source's
`namespace` field, which is a reserved word here. -/
structure DeviceRecord where
  deviceName : List Char
  deviceId : List Char
  nspace : String
  cluster : String
  health : String
  syncStatus : String
  lastSync : String
  repoUrl : String
  clusterFqdn : String
  appName : List Char
  name : List Char
deriving DecidableEq, Repr

/-- JavaScript `a || b` on strings: the left operand unless it is falsy
(the empty string), in which case the right operand. -/
def jsOrStr (a b : String) : String := if a = "" then b else a

/-- JavaScript `a || b` where `a` is a possibly-absent string field:
an absent or empty string falls through to `b`. -/
def jsOrList (a : Option (List Char)) (b : List Char) : List Char :=
  match a with
  | none => b
  | some l => if l = [] then b else l

/-- Embedding of the per-item arrow function inside `fetchDevices`
(DeviceDashboard.jsx lines 56-72): picks `app.appName || app.name`,
decodes it with `parseDeviceFields`, copies the projected fields, and
applies the fallbacks `app.repoUrl || "#"` and
`app.clusterFqdn || clusterFqdn || ""`. -/
def normalizeApp (clusterFqdn : String) (app : BackendApp) : DeviceRecord :=
  let applicationName := jsOrList app.appName app.name
  let fields := parseDeviceFields applicationName
  { deviceName := fields.deviceName
    deviceId := fields.deviceId
    nspace := app.nspace
    cluster := app.cluster
    health := app.health
    syncStatus := app.sync
    lastSync := app.lastSync
    repoUrl := jsOrStr app.repoUrl "#"
    clusterFqdn := jsOrStr app.clusterFqdn (jsOrStr clusterFqdn "")
    appName := applicationName
    name := applicationName }

/-- Component state touched by `fetchDevices`: the held device list, the
loading flag, the error message and the connected flag. -/
structure DashState where
  devices : List DeviceRecord
  loading : Bool
  error : String
  connected : Bool
deriving DecidableEq, Repr

/-- Body of the JSON response of the backend inventory route as read by the
frontend: an optional `error` field and an optional `apps` array. -/
structure FetchBody where
  error : Option String
  apps : Option (List BackendApp)
deriving DecidableEq, Repr

/-- Outcome of the `fetch` call inside `fetchDevices`: either the transport
failed (the promise rejected) or a response with a status code and a JSON
body arrived. -/
inductive FetchResult where
  | netError (msg : String)
  | response (status : Nat) (body : FetchBody)
deriving DecidableEq, Repr

/-- The `res.ok` predicate of the Fetch API: status in the range 200-299. -/
def resOk (status : Nat) : Bool := 200 ≤ status && status ≤ 299

/-- JavaScript truthiness of a possibly-absent string field, as tested by
`if (data.error) ...`: present and non-empty. -/
def jsTruthy : Option String → Bool
  | none => false
  | some s => if s = "" then false else true

/-- Embedding of `fetchDevices` (DeviceDashboard.jsx lines 46-82) as a
state transition on `DashState` driven by the outcome of the fetch: a
rejected promise or a non-2xx status or a truthy `error` field lands in the
catch block, which records the message, marks the dashboard disconnected
and leaves the device list untouched; otherwise the whole `apps` array is
normalized and replaces the device list. -/
def fetchDevices (clusterFqdn : String) (st : DashState) (r : FetchResult) : DashState :=
  match r with
  | .netError msg => { st with loading := false, error := msg, connected := false }
  | .response status body =>
    if resOk status then
      if jsTruthy body.error then
        { st with loading := false, error := body.error.getD "", connected := false }
      else
        { st with
          loading := false
          error := ""
          connected := true
          devices := (body.apps.getD []).map (normalizeApp clusterFqdn) }
    else
      { st with loading := false, error := "HTTP " ++ toString status, connected := false }

/-- Characterization of the fetch outcomes that land in the catch block of
`fetchDevices`, together with the message the catch block records. -/
def failureMessage : FetchResult → Option String
  | .netError msg => some msg
  | .response status body =>
    if resOk status then
      if jsTruthy body.error then some (body.error.getD "") else none
    else some ("HTTP " ++ toString status)

/-! ### Descriptor Builder and Upsert Orchestrator -/

/-- Declarative payload sent to the controller (§3 ApplicationDescriptor):
canonical resource name, source repo, fixed revision/path/project, the
destination, and the automated sync policy with namespace creation. -/
structure ApplicationDescriptor where
  name : List Char
  repoUrl : String
  targetRevision : String
  path : String
  destinationServer : String
  destinationNamespace : String
  project : String
  syncAutomated : Bool
  createNamespace : Bool
deriving DecidableEq, Repr

/-- Modelled from the spec: the backend Application Descriptor Builder
(the manifest-building helper in backend/main.py, not under src).  Per §3
and §4.2 it is pure, keys the resource on the canonical encoded name, fixes
revision, path and project, defaults an empty destination server and
namespace to the platform defaults, and enables automated sync with
namespace creation. -/
def build (name id : List Char) (repoUrl destServer destNs : String) : ApplicationDescriptor :=
  { name := encode name id
    repoUrl := repoUrl
    targetRevision := "main"
    path := "."
    destinationServer := if destServer = "" then "https://kubernetes.default.svc" else destServer
    destinationNamespace := if destNs = "" then "device-apps" else destNs
    project := "default"
    syncAutomated := true
    createNamespace := true }

/-- Controller-side store of Application resources: a list of entries keyed
by resource name (the mock controller of §8's testable properties). -/
abbrev ControllerState := List (List Char × ApplicationDescriptor)

/-- Whether the controller already holds a resource with the given name. -/
def hasKey (st : ControllerState) (k : List Char) : Bool :=
  st.any (fun p => decide (p.1 = k))

/-- Full replace of every resource entry with the given name (the PUT
semantics: the descriptor is authoritative and overwrites drift). -/
def replaceKey (st : ControllerState) (k : List Char) (d : ApplicationDescriptor) : ControllerState :=
  st.map (fun p => if p.1 = k then (k, d) else p)

/-- Resource looked up by name in the controller store. -/
def lookupKey (st : ControllerState) (k : List Char) : Option ApplicationDescriptor :=
  match st.find? (fun p => decide (p.1 = k)) with
  | some p => some p.2
  | none => none

/-- Number of resources with the given name in the controller store. -/
def countKey (st : ControllerState) (k : List Char) : Nat :=
  (st.filter (fun p => decide (p.1 = k))).length

/-- Network call issued by the orchestrator to the controller (§6): create
(POST), full replace (PUT) and synchronize. -/
inductive ControllerCall where
  | create (d : ApplicationDescriptor)
  | put (name : List Char) (d : ApplicationDescriptor)
  | sync (name : List Char)
deriving DecidableEq, Repr

/-- Controller response to the create attempt: success, 409 conflict, or
another non-2xx with its status code and raw body. -/
inductive CreateResp where
  | ok
  | conflict
  | err (code : Nat) (body : String)
deriving DecidableEq, Repr

/-- Controller response to the update (PUT) attempt. -/
inductive UpdateResp where
  | ok
  | err (code : Nat) (body : String)
deriving DecidableEq, Repr

/-- Controller response to the sync request. -/
inductive SyncResp where
  | ok
  | failed (msg : String)
deriving DecidableEq, Repr

/-- Reported sync failure extracted from the sync response. -/
def syncFailureOf : SyncResp → Option String
  | .ok => none
  | .failed msg => some msg

/-- Output contract of the upsert operation (§4.3): overall status, the
descriptor, a separately reported sync failure, and the controller error
for the terminal Failed state. -/
structure UpsertResult where
  status : String
  descriptor : ApplicationDescriptor
  syncFailure : Option String
  controllerError : Option (Nat × String)
deriving DecidableEq, Repr

/-- Modelled from the spec: the backend Upsert Orchestrator (the deploy
route of backend/main.py, not under src), as the state machine of §4.3
driven by the controller's responses.  In yaml-only mode no call is made
and only the builder's output is returned; otherwise the create attempt is
issued, a 2xx proceeds to sync, a 409 triggers exactly one PUT of the same
descriptor followed by sync, any other non-2xx is terminal Failed with the
raw error surfaced, and a sync failure is reported separately without
revoking the Deployed status. -/
def orchestrate (yamlOnly : Bool) (d : ApplicationDescriptor)
    (cr : CreateResp) (ur : UpdateResp) (sr : SyncResp) :
    UpsertResult × List ControllerCall :=
  if yamlOnly then (⟨"yaml_only", d, none, none⟩, [])
  else
    match cr with
    | .ok => (⟨"deployed", d, syncFailureOf sr, none⟩, [.create d, .sync d.name])
    | .conflict =>
      match ur with
      | .ok => (⟨"deployed", d, syncFailureOf sr, none⟩, [.create d, .put d.name d, .sync d.name])
      | .err code body => (⟨"failed", d, none, some (code, body)⟩, [.create d, .put d.name d])
    | .err code body => (⟨"failed", d, none, some (code, body)⟩, [.create d])

/-- Effect of one orchestrator call on the mock controller store: a create
inserts the resource unless the name is taken (in which case the controller
answers 409 and keeps its state), a PUT replaces the resource under its
name, and a sync does not change the stored definition. -/
def applyCall (st : ControllerState) : ControllerCall → ControllerState
  | .create d => if hasKey st d.name then st else st ++ [(d.name, d)]
  | .put k d => replaceKey st k d
  | .sync _ => st

/-- Create response of the mock controller: 409 exactly when a resource
with the same canonical name already exists. -/
def mockCreateResp (st : ControllerState) (d : ApplicationDescriptor) : CreateResp :=
  if hasKey st d.name then .conflict else .ok

/-- One upsert run against the mock controller: the orchestrator is driven
by the mock create response (updates always succeed on the mock, sync
succeeds iff `syncOk`), and the issued calls are folded into the store. -/
def mockRun (yamlOnly syncOk : Bool) (st : ControllerState) (d : ApplicationDescriptor) :
    UpsertResult × List ControllerCall × ControllerState :=
  let sr := if syncOk then SyncResp.ok else SyncResp.failed "sync failed"
  let (res, calls) := orchestrate yamlOnly d (mockCreateResp st d) UpdateResp.ok sr
  (res, calls, calls.foldl applyCall st)

/-- Controller store reached by one upsert of descriptor `d` against the
mock controller. -/
def upsertEffect (syncOk : Bool) (d : ApplicationDescriptor) (st : ControllerState) : ControllerState :=
  (mockRun false syncOk st d).2.2

/-- Number of PUT calls in a call trace. -/
def countPuts (calls : List ControllerCall) : Nat :=
  (calls.filter (fun c => match c with | .put _ _ => true | _ => false)).length

/-- Number of sync calls in a call trace. -/
def countSyncs (calls : List ControllerCall) : Nat :=
  (calls.filter (fun c => match c with | .sync _ => true | _ => false)).length

/-! ### Lemmas about the decoder -/

theorem lastIndexOf_eq_none (c : Char) (l : List Char) :
    lastIndexOf c l = none ↔ c ∉ l := by
  induction l with
  | nil => simp [lastIndexOf]
  | cons x xs ih =>
    rw [lastIndexOf]
    cases hx : lastIndexOf c xs with
    | some i =>
      have hmem : c ∈ xs := by
        by_contra hc
        rw [ih.mpr hc] at hx
        cases hx
      simp [hmem]
    | none =>
      have hx' : c ∉ xs := ih.mp hx
      by_cases hxc : x = c
      · simp [hxc]
      · simp [hxc, hx', Ne.symm hxc]

theorem lastIndexOf_append (c : Char) (a b : List Char) (hb : c ∉ b) :
    lastIndexOf c (a ++ c :: b) = some a.length := by
  induction a with
  | nil =>
    rw [List.nil_append, lastIndexOf, (lastIndexOf_eq_none c b).mpr hb]
    simp
  | cons x xs ih =>
    rw [List.cons_append, lastIndexOf, ih]
    simp

theorem drop_after (a b : List Char) (c : Char) :
    (a ++ c :: b).drop (a.length + 1) = b := by
  have h1 : a ++ c :: b = (a ++ [c]) ++ b := by simp
  have h2 : a.length + 1 = (a ++ [c]).length := by simp
  rw [h1, h2, List.drop_left]

/-! ### Claim theorems about the Identity Codec -/

/-- C10: for every string input (including the empty one) `parseDeviceFields`
is total — it is a plain function on character lists, so it returns a
result without throwing — and the device name it returns never contains a
hyphen: in the no-separator branch the name has no hyphen by construction,
and otherwise every remaining hyphen has been replaced by a space. -/
theorem c10_deviceName_no_hyphen (appName : List Char) :
    '-' ∉ (parseDeviceFields appName).deviceName := by
  unfold parseDeviceFields
  by_cases h : appName = []
  · simp [h]
  · rw [if_neg h]
    cases hl : lastIndexOf '-' (stripTag appName) with
    | none =>
      exact (lastIndexOf_eq_none '-' (stripTag appName)).mp hl
    | some i =>
      intro hmem
      obtain ⟨d, _, hdc⟩ := List.mem_map.mp hmem
      unfold dashToSpace at hdc
      by_cases hdd : d = '-'
      · rw [if_pos hdd] at hdc
        exact absurd hdc (by decide)
      · rw [if_neg hdd] at hdc
        exact hdd hdc

/-- C1 counterexample: the claim quantifies over every name that lacks the
`device-` marker or has no separator, but a name that lacks the marker and
still contains a hyphen, such as `foo-bar`, is split at its last hyphen
instead of being returned whole with an empty id. -/
theorem c1_counterexample :
    deviceTag.isPrefixOf ['f', 'o', 'o', '-', 'b', 'a', 'r'] = false ∧
    parseDeviceFields ['f', 'o', 'o', '-', 'b', 'a', 'r']
      ≠ ⟨['f', 'o', 'o', '-', 'b', 'a', 'r'], []⟩ ∧
    parseDeviceFields ['f', 'o', 'o', '-', 'b', 'a', 'r']
      = ⟨['f', 'o', 'o'], ['b', 'a', 'r']⟩ := by decide

/-- C1 (amended): for every application-name string that, after the
optional `device-` marker is stripped, contains no `-` separator,
`parseDeviceFields` returns — without ever raising, being a total
function — the whole marker-stripped string as the device name and the
empty string as the device id. -/
theorem c1_degenerate_decode (appName : List Char)
    (h : '-' ∉ stripTag appName) :
    parseDeviceFields appName = ⟨stripTag appName, []⟩ := by
  unfold parseDeviceFields
  by_cases he : appName = []
  · subst he
    have : stripTag [] = [] := by decide
    rw [if_pos rfl, this]
  · rw [if_neg he, (lastIndexOf_eq_none '-' (stripTag appName)).mpr h]

theorem c1_degenerate_decode_witness :
    '-' ∉ stripTag ['g', 'a', 't', 'e', 'w', 'a', 'y'] ∧
    parseDeviceFields ['g', 'a', 't', 'e', 'w', 'a', 'y']
      = ⟨['g', 'a', 't', 'e', 'w', 'a', 'y'], []⟩ :=
  ⟨by decide, c1_degenerate_decode ['g', 'a', 't', 'e', 'w', 'a', 'y'] (by decide)⟩

theorem roundChar (c : Char)
    (h : ('a' ≤ c ∧ c ≤ 'z') ∨ c.isDigit ∨ c = ' ') :
    dashToSpace (slugChar c) = c := by
  rcases h with ⟨h1, h2⟩ | h | h
  · have hne : c ≠ '-' := by
      intro heq
      rw [heq] at h1
      exact absurd h1 (by decide)
    unfold slugChar dashToSpace
    rw [if_pos (Or.inl ⟨h1, h2⟩), if_neg hne]
  · have hne : c ≠ '-' := by
      intro heq
      rw [heq] at h
      exact absurd h (by decide)
    unfold slugChar dashToSpace
    rw [if_pos (Or.inr (Or.inl h)), if_neg hne]
  · subst h
    decide

theorem map_round (l : List Char)
    (h : ∀ c ∈ l, ('a' ≤ c ∧ c ≤ 'z') ∨ c.isDigit ∨ c = ' ') :
    (l.map slugChar).map dashToSpace = l := by
  induction l with
  | nil => rfl
  | cons x xs ih =>
    simp only [List.map_cons]
    rw [roundChar x (h x (List.mem_cons_self x xs)),
      ih (fun c hc => h c (List.mem_cons_of_mem x hc))]

/-- C5 counterexample: the pair `(name, id) = ("A", "1")` is valid — the id
is a non-empty token — and the name contains no hyphen at all, hence no
trailing hyphen-separated token indistinguishable from the id; yet the
encoder slugs the name to lowercase, so the decoder recovers `("a", "1")`,
not the original pair. -/
theorem c5_counterexample :
    (['1'] : List Char) ≠ [] ∧ '-' ∉ (['1'] : List Char) ∧
    '-' ∉ (['A'] : List Char) ∧
    parseDeviceFields (encode ['A'] ['1']) ≠ ⟨['A'], ['1']⟩ ∧
    parseDeviceFields (encode ['A'] ['1']) = ⟨['a'], ['1']⟩ := by decide

/-- C5 (amended): for every pair of a non-empty hyphen-free id and a name
already in slug-normal form — every character a lowercase letter, a digit
or a space, so the slug step is injective on it — decoding the canonical
resource name produced by `encode` recovers exactly `(name, id)`: the
`device-` marker is stripped, the string is split at the last `-`, the
suffix is the id and the prefix with `-` mapped back to spaces is the
name. -/
theorem c5_round_trip (name id : List Char)
    (hid : id ≠ []) (hdash : '-' ∉ id)
    (hname : ∀ c ∈ name, ('a' ≤ c ∧ c ≤ 'z') ∨ c.isDigit ∨ c = ' ') :
    parseDeviceFields (encode name id) = ⟨name, id⟩ := by
  have hne : encode name id ≠ [] := by simp [encode, deviceTag]
  have hpre : deviceTag.isPrefixOf (encode name id) = true := by
    rw [List.isPrefixOf_iff_prefix]
    exact List.prefix_append _ _
  have hstrip : stripTag (encode name id) = slug name ++ '-' :: id := by
    unfold stripTag
    rw [if_pos hpre]
    unfold encode
    exact List.drop_left _ _
  unfold parseDeviceFields
  rw [if_neg hne, hstrip, lastIndexOf_append '-' (slug name) id hdash]
  show DeviceFields.mk (((slug name ++ '-' :: id).take (slug name).length).map dashToSpace)
      ((slug name ++ '-' :: id).drop ((slug name).length + 1)) = ⟨name, id⟩
  rw [List.take_left, drop_after]
  unfold slug
  rw [map_round name hname]

theorem c5_round_trip_witness :
    parseDeviceFields (encode ['m', 'y', ' ', 'd', 'e', 'v'] ['4', '2'])
      = ⟨['m', 'y', ' ', 'd', 'e', 'v'], ['4', '2']⟩ :=
  c5_round_trip ['m', 'y', ' ', 'd', 'e', 'v'] ['4', '2']
    (by decide) (by decide) (by decide)

/-! ### Claim theorems about the Inventory Reconciler -/

theorem fetchDevices_netError (clusterFqdn : String) (st : DashState) (msg : String) :
    fetchDevices clusterFqdn st (.netError msg)
      = { st with loading := false, error := msg, connected := false } := rfl

theorem fetchDevices_response (clusterFqdn : String) (st : DashState)
    (status : Nat) (body : FetchBody) :
    fetchDevices clusterFqdn st (.response status body)
      = if resOk status then
          if jsTruthy body.error then
            { st with loading := false, error := body.error.getD "", connected := false }
          else
            { st with
              loading := false
              error := ""
              connected := true
              devices := (body.apps.getD []).map (normalizeApp clusterFqdn) }
        else
          { st with loading := false, error := "HTTP " ++ toString status, connected := false } := rfl

theorem failureMessage_response (status : Nat) (body : FetchBody) :
    failureMessage (.response status body)
      = if resOk status then
          if jsTruthy body.error then some (body.error.getD "") else none
        else some ("HTTP " ++ toString status) := rfl

/-- C2: on a successful fetch — a 2xx status, no truthy error field, and an
`apps` array — the reconciliation produces exactly one device record per
returned item, in the same order, with no item dropped: the held device
list becomes the elementwise normalization of the returned array, so no
filtering, sorting or pagination happens before the full sequence is
handed over (those act downstream on the stored list). -/
theorem c2_complete_ordered_projection (clusterFqdn : String) (st : DashState)
    (status : Nat) (body : FetchBody) (apps : List BackendApp) (i : Nat)
    (hok : resOk status = true) (herr : jsTruthy body.error = false)
    (happs : body.apps = some apps) (hi : i < apps.length) :
    ((fetchDevices clusterFqdn st (.response status body)).devices).length = apps.length ∧
    ((fetchDevices clusterFqdn st (.response status body)).devices).get? i
      = some (normalizeApp clusterFqdn (apps.get ⟨i, hi⟩)) := by
  rw [fetchDevices_response, if_pos hok,
    if_neg (by rw [herr]; exact Bool.false_ne_true), happs]
  constructor
  · simp
  · rw [Option.getD_some, List.get?_map, List.get?_eq_get hi]
    rfl

theorem c2_complete_ordered_projection_witness :
    ((fetchDevices "fq" ⟨[], true, "", false⟩
        (.response 200 ⟨none, some [⟨['a', '-', '1'], none, "Healthy", "Synced", "t", "r", "n", "c", ""⟩]⟩)).devices).length = 1 ∧
    ((fetchDevices "fq" ⟨[], true, "", false⟩
        (.response 200 ⟨none, some [⟨['a', '-', '1'], none, "Healthy", "Synced", "t", "r", "n", "c", ""⟩]⟩)).devices).get? 0
      = some (normalizeApp "fq" ⟨['a', '-', '1'], none, "Healthy", "Synced", "t", "r", "n", "c", ""⟩) :=
  c2_complete_ordered_projection "fq" ⟨[], true, "", false⟩ 200
    ⟨none, some [⟨['a', '-', '1'], none, "Healthy", "Synced", "t", "r", "n", "c", ""⟩]⟩
    [⟨['a', '-', '1'], none, "Healthy", "Synced", "t", "r", "n", "c", ""⟩] 0
    (by decide) rfl rfl (by decide)

/-- C3: in the inventory projection — the backend strip of a raw controller
item composed with the dashboard normalization — an item whose health field
is unknown or missing (modelled as the absent field) yields a record whose
health is `Unknown`, and likewise an absent sync-status field yields a
record whose syncStatus is `Unknown`. -/
theorem c3_missing_fields_unknown (clusterFqdn : String) (raw : RawApp) :
    (raw.health = none →
      (normalizeApp clusterFqdn (stripItem raw)).health = "Unknown") ∧
    (raw.sync = none →
      (normalizeApp clusterFqdn (stripItem raw)).syncStatus = "Unknown") := by
  constructor
  · intro h
    simp [normalizeApp, stripItem, h]
  · intro h
    simp [normalizeApp, stripItem, h]

theorem c3_missing_fields_unknown_witness :
    (normalizeApp "" (stripItem ⟨['x'], none, none, "t", "r", "n", "c"⟩)).health = "Unknown" ∧
    (normalizeApp "" (stripItem ⟨['x'], none, none, "t", "r", "n", "c"⟩)).syncStatus = "Unknown" :=
  ⟨(c3_missing_fields_unknown "" ⟨['x'], none, none, "t", "r", "n", "c"⟩).1 rfl,
   (c3_missing_fields_unknown "" ⟨['x'], none, none, "t", "r", "n", "c"⟩).2 rfl⟩

/-- C4: whenever the fetch lands in the catch block — the transport failed,
the status was non-2xx, or the body carried a truthy error field — the
listing surfaces that single error message, marks the dashboard
disconnected, and leaves the previously held device list unchanged, so no
subset of the new response is ever exposed. -/
theorem c4_atomic_failure (clusterFqdn : String) (st : DashState)
    (r : FetchResult) (msg : String) (h : failureMessage r = some msg) :
    (fetchDevices clusterFqdn st r).devices = st.devices ∧
    (fetchDevices clusterFqdn st r).error = msg ∧
    (fetchDevices clusterFqdn st r).connected = false := by
  cases r with
  | netError m =>
    have hm : m = msg := by
      unfold failureMessage at h
      exact Option.some.inj h
    subst hm
    rw [fetchDevices_netError]
    exact ⟨rfl, rfl, rfl⟩
  | response status body =>
    rw [failureMessage_response] at h
    rw [fetchDevices_response]
    by_cases hok : resOk status = true
    · rw [if_pos hok] at h ⊢
      by_cases htr : jsTruthy body.error = true
      · rw [if_pos htr] at h ⊢
        cases h
        exact ⟨rfl, rfl, rfl⟩
      · rw [if_neg htr] at h
        cases h
    · rw [if_neg hok] at h ⊢
      cases h
      exact ⟨rfl, rfl, rfl⟩

theorem c4_atomic_failure_witness :
    (fetchDevices "" ⟨[⟨['a'], ['1'], "n", "c", "Healthy", "Synced", "t", "r", "f", ['a'], ['a']⟩], false, "", true⟩
        (.netError "network down")).devices
      = [⟨['a'], ['1'], "n", "c", "Healthy", "Synced", "t", "r", "f", ['a'], ['a']⟩] ∧
    (fetchDevices "" ⟨[⟨['a'], ['1'], "n", "c", "Healthy", "Synced", "t", "r", "f", ['a'], ['a']⟩], false, "", true⟩
        (.netError "network down")).error = "network down" ∧
    (fetchDevices "" ⟨[⟨['a'], ['1'], "n", "c", "Healthy", "Synced", "t", "r", "f", ['a'], ['a']⟩], false, "", true⟩
        (.netError "network down")).connected = false :=
  c4_atomic_failure ""
    ⟨[⟨['a'], ['1'], "n", "c", "Healthy", "Synced", "t", "r", "f", ['a'], ['a']⟩], false, "", true⟩
    (.netError "network down") "network down" rfl

/-! ### Lemmas about the mock controller store -/

theorem hasKey_cons (p : List Char × ApplicationDescriptor) (ps : ControllerState)
    (k : List Char) :
    hasKey (p :: ps) k = (decide (p.1 = k) || hasKey ps k) := rfl

theorem hasKey_false_head (p : List Char × ApplicationDescriptor) (ps : ControllerState)
    (k : List Char) (h : hasKey (p :: ps) k = false) :
    p.1 ≠ k ∧ hasKey ps k = false := by
  rw [hasKey_cons] at h
  rcases Bool.or_eq_false_iff.mp h with ⟨h1, h2⟩
  exact ⟨of_decide_eq_false h1, h2⟩

theorem replaceKey_of_hasKey_false (st : ControllerState) (k : List Char)
    (d : ApplicationDescriptor) (h : hasKey st k = false) :
    replaceKey st k d = st := by
  induction st with
  | nil => rfl
  | cons p ps ih =>
    obtain ⟨hp, hps⟩ := hasKey_false_head p ps k h
    unfold replaceKey at ih ⊢
    rw [List.map_cons, if_neg hp, ih hps]

theorem hasKey_replaceKey (st : ControllerState) (k : List Char)
    (d : ApplicationDescriptor) :
    hasKey (replaceKey st k d) k = hasKey st k := by
  induction st with
  | nil => rfl
  | cons p ps ih =>
    unfold replaceKey at ih ⊢
    rw [List.map_cons]
    by_cases hp : p.1 = k
    · rw [if_pos hp, hasKey_cons, hasKey_cons, decide_eq_true hp, decide_eq_true rfl,
        Bool.true_or, Bool.true_or]
    · rw [if_neg hp, hasKey_cons, hasKey_cons, ih]

theorem hasKey_append_single (st : ControllerState) (k : List Char)
    (d : ApplicationDescriptor) :
    hasKey (st ++ [(k, d)]) k = true := by
  induction st with
  | nil => simp [hasKey]
  | cons p ps ih =>
    rw [List.cons_append, hasKey_cons, ih, Bool.or_true]

theorem replaceKey_replaceKey (st : ControllerState) (k : List Char)
    (d : ApplicationDescriptor) :
    replaceKey (replaceKey st k d) k d = replaceKey st k d := by
  unfold replaceKey
  rw [List.map_map]
  congr 1
  funext p
  by_cases hp : p.1 = k
  · simp [hp]
  · simp [hp]

theorem lookupKey_replaceKey (st : ControllerState) (k : List Char)
    (d : ApplicationDescriptor) (h : hasKey st k = true) :
    lookupKey (replaceKey st k d) k = some d := by
  induction st with
  | nil => cases h
  | cons p ps ih =>
    unfold replaceKey lookupKey at ih ⊢
    rw [List.map_cons]
    by_cases hp : p.1 = k
    · rw [if_pos hp]
      simp [List.find?]
    · rw [if_neg hp]
      rw [List.find?_cons_of_neg _ (by simpa using hp)]
      rw [hasKey_cons] at h
      rcases Bool.or_eq_true_iff.mp h with h1 | h2
      · exact absurd (of_decide_eq_true h1) hp
      · exact ih h2

theorem lookupKey_append_single (st : ControllerState) (k : List Char)
    (d : ApplicationDescriptor) (h : hasKey st k = false) :
    lookupKey (st ++ [(k, d)]) k = some d := by
  induction st with
  | nil => simp [lookupKey, List.find?]
  | cons p ps ih =>
    obtain ⟨hp, hps⟩ := hasKey_false_head p ps k h
    unfold lookupKey at ih ⊢
    rw [List.cons_append, List.find?_cons_of_neg _ (by simpa using hp)]
    exact ih hps

theorem countKey_replaceKey (st : ControllerState) (k : List Char)
    (d : ApplicationDescriptor) :
    countKey (replaceKey st k d) k = countKey st k := by
  induction st with
  | nil => rfl
  | cons p ps ih =>
    unfold replaceKey countKey at ih ⊢
    rw [List.map_cons]
    by_cases hp : p.1 = k
    · rw [if_pos hp]
      rw [List.filter_cons, List.filter_cons]
      simp only [decide_eq_true hp, decide_eq_true (rfl : (k, d).1 = k)]
      simp [ih]
    · rw [if_neg hp]
      rw [List.filter_cons, List.filter_cons]
      simp only [decide_eq_false hp]
      simpa using ih

theorem countKey_append_single (st : ControllerState) (k : List Char)
    (d : ApplicationDescriptor) :
    countKey (st ++ [(k, d)]) k = countKey st k + 1 := by
  unfold countKey
  rw [List.filter_append, List.length_append]
  simp [List.filter]

theorem countKey_eq_zero (st : ControllerState) (k : List Char) :
    countKey st k = 0 ↔ hasKey st k = false := by
  induction st with
  | nil => exact ⟨fun _ => rfl, fun _ => rfl⟩
  | cons p ps ih =>
    unfold countKey at ih ⊢
    rw [hasKey_cons, List.filter_cons]
    by_cases hp : p.1 = k
    · rw [decide_eq_true hp, if_pos rfl, Bool.true_or]
      exact ⟨fun hlen => absurd hlen (Nat.succ_ne_zero _), fun hb => Bool.noConfusion hb⟩
    · rw [decide_eq_false hp, if_neg Bool.false_ne_true, Bool.false_or]
      exact ih

/-! ### Claim theorems about the Upsert Orchestrator -/

/-- C7: whenever the create attempt hits an existing resource — the mock
controller answers 409 exactly then — the orchestrator surfaces no error
(status is deployed, no controller error), and its call trace is exactly a
create followed by one PUT resubmitting the same descriptor as a full
replace and then one sync call; the store afterwards holds the descriptor
under its canonical name. -/
theorem c7_conflict_handled (st : ControllerState) (d : ApplicationDescriptor)
    (syncOk : Bool) (h : hasKey st d.name = true) :
    (mockRun false syncOk st d).2.1
      = [ControllerCall.create d, ControllerCall.put d.name d, ControllerCall.sync d.name] ∧
    countPuts (mockRun false syncOk st d).2.1 = 1 ∧
    countSyncs (mockRun false syncOk st d).2.1 = 1 ∧
    (mockRun false syncOk st d).1.status = "deployed" ∧
    (mockRun false syncOk st d).1.controllerError = none ∧
    lookupKey (mockRun false syncOk st d).2.2 d.name = some d := by
  simp only [mockRun, mockCreateResp, orchestrate, applyCall, h, if_true, List.foldl]
  exact ⟨rfl, rfl, rfl, rfl, rfl, lookupKey_replaceKey st d.name d h⟩

theorem c7_conflict_handled_witness :
    countPuts (mockRun false true [(encode ['a'] ['1'], build ['a'] ['1'] "r" "" "")]
        (build ['a'] ['1'] "r" "" "")).2.1 = 1 ∧
    countSyncs (mockRun false true [(encode ['a'] ['1'], build ['a'] ['1'] "r" "" "")]
        (build ['a'] ['1'] "r" "" "")).2.1 = 1 ∧
    (mockRun false true [(encode ['a'] ['1'], build ['a'] ['1'] "r" "" "")]
        (build ['a'] ['1'] "r" "" "")).1.controllerError = none :=
  ⟨(c7_conflict_handled _ _ true (by decide)).2.1,
   (c7_conflict_handled [(encode ['a'] ['1'], build ['a'] ['1'] "r" "" "")]
      (build ['a'] ['1'] "r" "" "") true (by decide)).2.2.1,
   (c7_conflict_handled [(encode ['a'] ['1'], build ['a'] ['1'] "r" "" "")]
      (build ['a'] ['1'] "r" "" "") true (by decide)).2.2.2.2.1⟩

/-- C8: for every run in which the create succeeded, or the create hit a
409 and the update succeeded, and the subsequent sync call failed, the
overall result still reports the resource definition as deployed — the
create/update is not rolled back — while the sync failure is reported
separately in the response. -/
theorem c8_sync_failure_isolated (d : ApplicationDescriptor) (cr : CreateResp)
    (ur : UpdateResp) (msg : String)
    (h : cr = CreateResp.ok ∨ (cr = CreateResp.conflict ∧ ur = UpdateResp.ok)) :
    (orchestrate false d cr ur (SyncResp.failed msg)).1.status = "deployed" ∧
    (orchestrate false d cr ur (SyncResp.failed msg)).1.syncFailure = some msg ∧
    (orchestrate false d cr ur (SyncResp.failed msg)).1.descriptor = d := by
  rcases h with h | ⟨h1, h2⟩
  · subst h
    exact ⟨rfl, rfl, rfl⟩
  · subst h1
    subst h2
    exact ⟨rfl, rfl, rfl⟩

theorem c8_sync_failure_isolated_witness :
    (orchestrate false (build ['a'] ['1'] "r" "" "") CreateResp.ok UpdateResp.ok
        (SyncResp.failed "boom")).1.status = "deployed" ∧
    (orchestrate false (build ['a'] ['1'] "r" "" "") CreateResp.ok UpdateResp.ok
        (SyncResp.failed "boom")).1.syncFailure = some "boom" ∧
    (orchestrate false (build ['a'] ['1'] "r" "" "") CreateResp.ok UpdateResp.ok
        (SyncResp.failed "boom")).1.descriptor = build ['a'] ['1'] "r" "" "" :=
  c8_sync_failure_isolated (build ['a'] ['1'] "r" "" "") CreateResp.ok UpdateResp.ok
    "boom" (Or.inl rfl)

/-- C9: in yaml-only mode the upsert makes zero network calls to the
continuous-delivery controller — the call trace is empty — the result
carries only the Descriptor Builder's output with the yaml-only status,
and the controller store is left unchanged. -/
theorem c9_yaml_only_no_network (name id : List Char)
    (repoUrl destServer destNs : String) (syncOk : Bool) (st : ControllerState) :
    mockRun true syncOk st (build name id repoUrl destServer destNs)
      = (⟨"yaml_only", build name id repoUrl destServer destNs, none, none⟩, [], st) := rfl

theorem mockRun_status (syncOk : Bool) (st : ControllerState)
    (d : ApplicationDescriptor) :
    (mockRun false syncOk st d).1.status = "deployed" := by
  by_cases h : hasKey st d.name = true
  · simp only [mockRun, mockCreateResp, orchestrate, h, if_true, Bool.false_eq_true, if_false]
  · have h' : hasKey st d.name = false := by
      cases hb : hasKey st d.name
      · rfl
      · exact absurd hb h
    simp only [mockRun, mockCreateResp, orchestrate, h', Bool.false_eq_true, if_false]

theorem upsertEffect_eq (syncOk : Bool) (d : ApplicationDescriptor)
    (st : ControllerState) :
    upsertEffect syncOk d st
      = if hasKey st d.name then replaceKey st d.name d else st ++ [(d.name, d)] := by
  by_cases h : hasKey st d.name = true
  · simp only [upsertEffect, mockRun, mockCreateResp, orchestrate, applyCall,
      List.foldl, h, if_true]
  · have h' : hasKey st d.name = false := by
      cases hb : hasKey st d.name
      · rfl
      · exact absurd hb h
    simp only [upsertEffect, mockRun, mockCreateResp, orchestrate, applyCall,
      List.foldl, h', Bool.false_eq_true, if_false]

theorem upsertEffect_idem (syncOk : Bool) (d : ApplicationDescriptor)
    (st : ControllerState) :
    upsertEffect syncOk d (upsertEffect syncOk d st) = upsertEffect syncOk d st := by
  rw [upsertEffect_eq syncOk d st]
  by_cases h : hasKey st d.name = true
  · rw [if_pos h, upsertEffect_eq, hasKey_replaceKey, if_pos h, replaceKey_replaceKey]
  · have h' : hasKey st d.name = false := by
      cases hb : hasKey st d.name
      · rfl
      · exact absurd hb h
    rw [if_neg h, upsertEffect_eq, hasKey_append_single, if_pos rfl]
    unfold replaceKey
    rw [List.map_append]
    have h1 : (st.map (fun p => if p.1 = d.name then (d.name, d) else p)) = st :=
      replaceKey_of_hasKey_false st d.name d h'
    rw [h1]
    simp

/-- C6: starting from a controller store holding at most one resource under
the canonical name of the built descriptor, repeating the upsert any number
of times converges after the first run — every further run leaves the store
fixed — to a store holding exactly one resource under that name whose spec
equals the built descriptor; no duplicate is ever created, and every
repetition reports the deployed status. -/
theorem c6_upsert_idempotent (name id : List Char)
    (repoUrl destServer destNs : String) (st : ControllerState)
    (syncOk : Bool) (n : Nat)
    (h : countKey st (build name id repoUrl destServer destNs).name ≤ 1) :
    countKey ((upsertEffect syncOk (build name id repoUrl destServer destNs))^[n + 1] st)
        (build name id repoUrl destServer destNs).name = 1 ∧
    lookupKey ((upsertEffect syncOk (build name id repoUrl destServer destNs))^[n + 1] st)
        (build name id repoUrl destServer destNs).name
      = some (build name id repoUrl destServer destNs) ∧
    (upsertEffect syncOk (build name id repoUrl destServer destNs))^[n + 1] st
      = upsertEffect syncOk (build name id repoUrl destServer destNs) st ∧
    (mockRun false syncOk
        ((upsertEffect syncOk (build name id repoUrl destServer destNs))^[n + 1] st)
        (build name id repoUrl destServer destNs)).1.status = "deployed" := by
  have hconv : ∀ m : Nat,
      (upsertEffect syncOk (build name id repoUrl destServer destNs))^[m + 1] st
        = upsertEffect syncOk (build name id repoUrl destServer destNs) st := by
    intro m
    induction m with
    | zero => rfl
    | succ m ih =>
      rw [Function.iterate_succ_apply', ih, upsertEffect_idem]
  have hstep :
      countKey (upsertEffect syncOk (build name id repoUrl destServer destNs) st)
          (build name id repoUrl destServer destNs).name = 1 ∧
      lookupKey (upsertEffect syncOk (build name id repoUrl destServer destNs) st)
          (build name id repoUrl destServer destNs).name
        = some (build name id repoUrl destServer destNs) := by
    rw [upsertEffect_eq]
    by_cases hk : hasKey st (build name id repoUrl destServer destNs).name = true
    · rw [if_pos hk]
      have hpos : countKey st (build name id repoUrl destServer destNs).name ≠ 0 := by
        intro h0
        rw [(countKey_eq_zero st _).mp h0] at hk
        exact Bool.noConfusion hk
      have hone : countKey st (build name id repoUrl destServer destNs).name = 1 :=
        Nat.le_antisymm h (Nat.one_le_iff_ne_zero.mpr hpos)
      refine ⟨?_, lookupKey_replaceKey st _ _ hk⟩
      rw [countKey_replaceKey, hone]
    · have hk' : hasKey st (build name id repoUrl destServer destNs).name = false := by
        cases hb : hasKey st (build name id repoUrl destServer destNs).name
        · rfl
        · exact absurd hb hk
      rw [if_neg hk]
      refine ⟨?_, lookupKey_append_single st _ _ hk'⟩
      rw [countKey_append_single, (countKey_eq_zero st _).mpr hk']
  rw [hconv n]
  exact ⟨hstep.1, hstep.2, rfl, mockRun_status syncOk _ _⟩

theorem c6_upsert_idempotent_witness :
    countKey ((upsertEffect true (build ['a'] ['1'] "r" "" ""))^[3] [])
        (build ['a'] ['1'] "r" "" "").name = 1 ∧
    lookupKey ((upsertEffect true (build ['a'] ['1'] "r" "" ""))^[3] [])
        (build ['a'] ['1'] "r" "" "").name = some (build ['a'] ['1'] "r" "" "") :=
  ⟨(c6_upsert_idempotent ['a'] ['1'] "r" "" "" [] true 2 (by decide)).1,
   (c6_upsert_idempotent ['a'] ['1'] "r" "" "" [] true 2 (by decide)).2.1⟩

end DeviceDeploy
